import Mathlib

/-!
Shallow embedding of `seasonals.py` (Japan7/seasonals-hell): a CLI utility
that lists a season's anime lineup from a GraphQL catalog API and
cross-references it against a user's watch list.  Network effects are made
explicit: responses are passed in as values, printed output is returned as a
list of strings, and a raised exception is modelled as `none`.
-/

namespace Seasonals

/-- Embeds `PageInfo(pydantic.BaseModel)`. -/
structure PageInfo where
  hasNextPage : Bool
deriving Repr, DecidableEq

/-- Embeds `Date(pydantic.BaseModel)`: optional year, month, day. -/
structure Date where
  year : Option Int
  month : Option Int
  day : Option Int
deriving Repr, DecidableEq

/-- Embeds `Date.__lt__`: the sequence of early returns from the source,
in order: `self.year is None` yields True, `other.year is None` yields False,
`self.year < other.year` yields True, then the same three steps for month and
for day, and finally False. -/
def date_lt (self other : Date) : Bool :=
  match self.year with
  | none => true
  | some sy =>
    match other.year with
    | none => false
    | some oy =>
      if sy < oy then true
      else
        match self.month with
        | none => true
        | some sm =>
          match other.month with
          | none => false
          | some om =>
            if sm < om then true
            else
              match self.day with
              | none => true
              | some sd =>
                match other.day with
                | none => false
                | some od => if sd < od then true else false

/-- Modelled from the spec's words, for comparison with `date_lt`:
lexicographic order on fully-specified (year, month, day) triples. -/
def date_lt_lex (a b : Int × Int × Int) : Bool :=
  decide (a.1 < b.1 ∨ (a.1 = b.1 ∧ (a.2.1 < b.2.1 ∨ (a.2.1 = b.2.1 ∧ a.2.2 < b.2.2))))

/-- Claim C1: for fully-specified dates, `Date.__lt__` is claimed to be
exactly lexicographic comparison of (year, month, day).  The code violates
this: with A = (2,1,1) and B = (1,2,1), the comparison returns True for
A < B (and also for B < A), although A is lexicographically greater than B.
The year branch only returns True on strictly-less and otherwise falls
through to the month comparison, even when the years differ. -/
theorem date_lt_not_lex_full :
    date_lt ⟨some 2, some 1, some 1⟩ ⟨some 1, some 2, some 1⟩ = true
    ∧ date_lt_lex (2, 1, 1) (1, 2, 1) = false
    ∧ date_lt ⟨some 1, some 2, some 1⟩ ⟨some 2, some 1, some 1⟩ = true := by
  refine ⟨rfl, by decide, rfl⟩

/-- Claim C8: the two-sided null handling of `Date.__lt__`: a missing year
on the left sorts below any present year (and not conversely); with equal
present years, a missing month on the left sorts below a present month; with
equal present years and months, a missing day sorts below a present day. -/
theorem date_lt_null_low (A B : Date) :
    (A.year = none → B.year ≠ none → date_lt A B = true ∧ date_lt B A = false)
    ∧ (∀ y : Int, A.year = some y → B.year = some y →
        A.month = none → B.month ≠ none → date_lt A B = true)
    ∧ (∀ y m : Int, A.year = some y → B.year = some y →
        A.month = some m → B.month = some m →
        A.day = none → B.day ≠ none → date_lt A B = true) := by
  refine ⟨?_, ?_, ?_⟩
  · intro hA hB
    constructor
    · simp [date_lt, hA]
    · rcases hBy : B.year with _ | y
      · exact absurd hBy hB
      · simp [date_lt, hBy, hA]
  · intro y hA hB hAm hBm
    simp [date_lt, hA, hB, hAm]
  · intro y m hA hB hAm hBm hAd hBd
    simp [date_lt, hA, hB, hAm, hBm, hAd]

/-- Claim C8 witness at concrete dates. -/
theorem date_lt_null_low_witness :
    date_lt ⟨none, some 1, some 1⟩ ⟨some 2000, none, none⟩ = true
    ∧ date_lt ⟨some 2000, none, none⟩ ⟨none, some 1, some 1⟩ = false
    ∧ date_lt ⟨some 2000, none, some 1⟩ ⟨some 2000, some 1, none⟩ = true
    ∧ date_lt ⟨some 2000, some 1, none⟩ ⟨some 2000, some 1, some 5⟩ = true := by
  have h1 := (date_lt_null_low ⟨none, some 1, some 1⟩ ⟨some 2000, none, none⟩).1
    rfl (by decide)
  have h2 := (date_lt_null_low ⟨some 2000, none, some 1⟩ ⟨some 2000, some 1, none⟩).2.1
    2000 rfl rfl rfl (by decide)
  have h3 := (date_lt_null_low ⟨some 2000, some 1, none⟩ ⟨some 2000, some 1, some 5⟩).2.2
    2000 1 rfl rfl rfl rfl rfl (by decide)
  exact ⟨h1.1, h1.2, h2, h3⟩

/-- Claim C9: `Date.__lt__` is not a strict order: any date with a missing
year, and any date with a present year but missing month, compares strictly
less than itself, so irreflexivity (and with it asymmetry) fails. -/
theorem date_lt_irrefl_fails (d : Date)
    (h : d.year = none ∨ (d.year ≠ none ∧ d.month = none)) :
    date_lt d d = true ∧ ¬ (∀ e : Date, date_lt e e = false) := by
  have h1 : date_lt d d = true := by
    rcases h with hy | ⟨hy, hm⟩
    · simp [date_lt, hy]
    · rcases hdy : d.year with _ | y
      · exact absurd hdy hy
      · simp [date_lt, hdy, hm]
  refine ⟨h1, fun hall => ?_⟩
  have := hall d
  rw [h1] at this
  exact Bool.noConfusion this

/-- Claim C9 witness at a concrete date with a missing year. -/
theorem date_lt_irrefl_fails_witness :
    date_lt ⟨none, some 1, some 1⟩ ⟨none, some 1, some 1⟩ = true
    ∧ ¬ (∀ e : Date, date_lt e e = false) :=
  date_lt_irrefl_fails ⟨none, some 1, some 1⟩ (Or.inl rfl)

/-- Embeds `Tag(pydantic.BaseModel)`. -/
structure Tag where
  id : Int
  name : String
  category : String
  rank : Int
deriving Repr, DecidableEq

/-- Embeds `Title(pydantic.BaseModel)`. -/
structure Title where
  romaji : String
  english : Option String
  native : String
  userPreferred : String
deriving Repr, DecidableEq

/-- Embeds `MediaEdge(pydantic.BaseModel)`. -/
structure MediaEdge where
  relationType : String
deriving Repr, DecidableEq

/-- Embeds `MediaConnection(pydantic.BaseModel)`. -/
structure MediaConnection where
  edges : List MediaEdge
deriving Repr, DecidableEq

/-- Embeds `Media(pydantic.BaseModel)`. -/
structure Media where
  id : Int
  startDate : Date
  isAdult : Bool
  episodes : Option Int
  isLicensed : Bool
  genres : List String
  tags : List Tag
  title : Title
  relations : MediaConnection
  format : Option String
deriving Repr, DecidableEq

/-- Embeds `AnimePage(pydantic.BaseModel)`. -/
structure AnimePage where
  pageInfo : PageInfo
  media : List Media
deriving Repr, DecidableEq

/-- Embeds `MediaSeason(enum.Enum)`. -/
inductive MediaSeason
  | WINTER
  | SPRING
  | SUMMER
  | FALL
deriving Repr, DecidableEq

/-- The French display label carried by each `MediaSeason` enum value. -/
def MediaSeason.value : MediaSeason → String
  | .WINTER => "hivers"
  | .SPRING => "printemps"
  | .SUMMER => "été"
  | .FALL => "automne"

/-- The body of the per-media loop of `get_anime`: True when none of the three
`continue` conditions fires, i.e. the media is appended to the result.
The three conditions, in source order: `media.format in ("MOVIE", "OVA",
"SPECIAL", "MUSIC")` (False when format is None), `media.isAdult`, and
`any(rel.relationType in ("PREQUEL", "SEQUEL") for rel in
media.relations.edges)`. -/
def media_kept (media : Media) : Bool :=
  if (match media.format with
      | some f => decide (f ∈ ["MOVIE", "OVA", "SPECIAL", "MUSIC"])
      | none => false) then false
  else if media.isAdult then false
  else if media.relations.edges.any
      (fun rel => decide (rel.relationType ∈ ["PREQUEL", "SEQUEL"])) then false
  else true

/-- The accumulation loop of `get_anime` over one page's media list:
`medias = []`, then for each media, `continue` on the excluded cases and
`medias.append(media)` otherwise. -/
def filter_page (medias : List Media) : List Media :=
  medias.foldl (fun acc media => if media_kept media then acc ++ [media] else acc) []

/-- Embeds the recursive pagination of `get_anime`: the HTTP layer is
abstracted as `resp`, mapping a page number to the decoded `AnimePage` the
API returns for it.  The source recursion has no bound, so the embedding
carries explicit fuel; `none` means the recursion did not finish within the
given fuel. -/
def get_anime (resp : Nat → AnimePage) (page : Nat) : Nat → Option (List Media)
  | 0 => none
  | fuel + 1 =>
    let page_resp := resp page
    let medias := filter_page page_resp.media
    if page_resp.pageInfo.hasNextPage then
      (get_anime resp (page + 1) fuel).map (fun rest => medias ++ rest)
    else
      some medias

/-- The exclusion predicate as claim C3 states it: format is one of MOVIE,
OVA, SPECIAL, MUSIC, or the adult flag is set, or some relation edge has
type PREQUEL or SEQUEL. -/
def claim_excluded (m : Media) : Prop :=
  m.format ∈ [some "MOVIE", some "OVA", some "SPECIAL", some "MUSIC"]
  ∨ m.isAdult = true
  ∨ ∃ e ∈ m.relations.edges, e.relationType = "PREQUEL" ∨ e.relationType = "SEQUEL"

instance : DecidablePred claim_excluded := fun m => by
  unfold claim_excluded
  infer_instance

lemma media_kept_eq_not_claim_excluded (m : Media) :
    media_kept m = decide (¬ claim_excluded m) := by
  obtain ⟨i, sd, ad, ep, lic, g, t, ti, rel, fmt⟩ := m
  rw [Bool.eq_iff_iff]
  unfold media_kept claim_excluded
  rcases fmt with _ | f <;>
    split_ifs with h1 h2 h3 <;>
      simp_all [List.any_eq_true, decide_eq_true_eq]

lemma foldl_append_filter (p : Media → Bool) (l : List Media) :
    ∀ acc : List Media,
      l.foldl (fun a m => if p m then a ++ [m] else a) acc = acc ++ l.filter p := by
  induction l with
  | nil => intro acc; simp
  | cons m rest ih =>
    intro acc
    rcases hp : p m <;> simp [List.foldl_cons, hp, ih, List.filter_cons]

/-- Claim C3: the per-media filter of `get_anime` keeps exactly the items
not excluded by the claim's predicate (format MOVIE/OVA/SPECIAL/MUSIC, adult
flag, or a PREQUEL/SEQUEL relation edge), in the page's original order. -/
theorem filter_page_spec (l : List Media) :
    filter_page l = l.filter (fun m => decide (¬ claim_excluded m)) := by
  unfold filter_page
  rw [foldl_append_filter media_kept l []]
  simp only [List.nil_append]
  congr 1
  funext m
  exact media_kept_eq_not_claim_excluded m

lemma get_anime_join (resp : Nat → AnimePage) :
    ∀ (d page : Nat),
      (∀ i, i < d → (resp (page + i)).pageInfo.hasNextPage = true) →
      (resp (page + d)).pageInfo.hasNextPage = false →
      get_anime resp page (d + 1)
        = some (((List.range (d + 1)).map
            (fun i => filter_page (resp (page + i)).media)).flatten) := by
  intro d
  induction d with
  | zero =>
    intro page _ h2
    rw [Nat.add_zero] at h2
    simp [get_anime, h2, List.range_succ]
  | succ d ih =>
    intro page h1 h2
    have h0 : (resp page).pageInfo.hasNextPage = true := by
      have := h1 0 (Nat.succ_pos d)
      rwa [Nat.add_zero] at this
    have h1s : ∀ i, i < d → (resp (page + 1 + i)).pageInfo.hasNextPage = true := by
      intro i hi
      have := h1 (i + 1) (by omega)
      rwa [show page + 1 + i = page + (i + 1) by omega]
    have h2s : (resp (page + 1 + d)).pageInfo.hasNextPage = false := by
      rwa [show page + 1 + d = page + (d + 1) by omega]
    have hrec := ih (page + 1) h1s h2s
    show get_anime resp page (d + 1 + 1) = _
    rw [get_anime, if_pos h0, hrec]
    conv_rhs => rw [List.range_succ_eq_map]
    simp only [List.map_cons, List.flatten_cons, List.map_map, Nat.add_zero]
    have hmap : List.map ((fun i => filter_page (resp (page + i)).media) ∘ Nat.succ)
          (List.range (d + 1))
        = List.map (fun i => filter_page (resp (page + 1 + i)).media)
          (List.range (d + 1)) := by
      refine List.map_congr_left ?_
      intro a ha
      simp only [Function.comp_apply]
      rw [show page + Nat.succ a = page + 1 + a by omega]
    rw [hmap]
    rfl

lemma get_anime_isSome (resp : Nat → AnimePage) :
    ∀ (d page : Nat), (resp (page + d)).pageInfo.hasNextPage = false →
      ∃ l, get_anime resp page (d + 1) = some l := by
  intro d
  induction d with
  | zero =>
    intro page h
    rw [Nat.add_zero] at h
    refine ⟨filter_page (resp page).media, ?_⟩
    simp [get_anime, h]
  | succ d ih =>
    intro page h
    rcases h0 : (resp page).pageInfo.hasNextPage with _ | _
    · refine ⟨filter_page (resp page).media, ?_⟩
      rw [get_anime, if_neg (by simp [h0])]
    · have hs : (resp (page + 1 + d)).pageInfo.hasNextPage = false := by
        rwa [show page + 1 + d = page + (d + 1) by omega]
      obtain ⟨l, hl⟩ := ih (page + 1) hs
      refine ⟨filter_page (resp page).media ++ l, ?_⟩
      rw [get_anime, if_pos h0, hl]
      rfl

lemma get_anime_none_of_all_next (resp : Nat → AnimePage)
    (h : ∀ n, (resp n).pageInfo.hasNextPage = true) :
    ∀ (fuel page : Nat), get_anime resp page fuel = none := by
  intro fuel
  induction fuel with
  | zero => intro page; rfl
  | succ fuel ih =>
    intro page
    rw [get_anime, if_pos (h page), ih (page + 1)]
    rfl

/-- Claim C5: when pages `page .. page + d - 1` all report a next page and
page `page + d` does not, `get_anime` returns the per-page filtered media
lists concatenated in page order (each page's items in within-page order). -/
theorem get_anime_concat (resp : Nat → AnimePage) (page d : Nat)
    (h1 : ∀ i, i < d → (resp (page + i)).pageInfo.hasNextPage = true)
    (h2 : (resp (page + d)).pageInfo.hasNextPage = false) :
    get_anime resp page (d + 1)
      = some (((List.range (d + 1)).map
          (fun i => filter_page (resp (page + i)).media)).flatten) :=
  get_anime_join resp d page h1 h2

/-- Claim C6: if some page at or after the starting page reports no next
page, the recursion of `get_anime` finishes and returns a result; with an
API that always reports a next page, no amount of fuel produces a result. -/
theorem get_anime_termination :
    (∀ (resp : Nat → AnimePage) (page d : Nat),
      (resp (page + d)).pageInfo.hasNextPage = false →
      ∃ l, get_anime resp page (d + 1) = some l)
    ∧ (∀ (resp : Nat → AnimePage) (fuel page : Nat),
      (∀ n, (resp n).pageInfo.hasNextPage = true) →
      get_anime resp page fuel = none) :=
  ⟨fun resp page d h => get_anime_isSome resp d page h,
   fun resp fuel page h => get_anime_none_of_all_next resp h fuel page⟩

/-- Embeds `MediaEntry(pydantic.BaseModel)`. -/
structure MediaEntry where
  id : Int
  mediaId : Int
  status : String
  progress : Int
  score : Int
deriving Repr, DecidableEq

/-- Embeds `MediaList(pydantic.BaseModel)`. -/
structure MediaList where
  entries : List MediaEntry
deriving Repr, DecidableEq

/-- Embeds `MediaListCollection(pydantic.BaseModel)`. -/
structure MediaListCollection where
  lists : List MediaList
deriving Repr, DecidableEq

/-- The HTTP response seen by `get_userlist`, abstracted: the status code,
the JSON document of the body as the text that `print(req.json())` emits,
whether `req.json()` decodes at all, and the result of validating
`data.MediaListCollection` of the decoded body (`none` when validation
raises). -/
structure UserlistResponse where
  status_code : Nat
  json_decodes : Bool
  body : String
  parsed : Option MediaListCollection
deriving Repr, DecidableEq

/-- Embeds `requests.Response.raise_for_status`: it raises exactly for
client-error (4xx) and server-error (5xx) status codes. -/
def raise_for_status (status_code : Nat) : Bool :=
  decide (400 ≤ status_code ∧ status_code < 600)

/-- Embeds `get_userlist`, with effects explicit: the returned pair is the
list of printed lines and the returned entry list, `none` standing for an
exception propagating out (from `req.json()`, `raise_for_status`, or
validation).  The source prints the decoded body and calls
`raise_for_status` whenever the status is not 200, then flattens the
validated collection's per-list entries in order. -/
def get_userlist (req : UserlistResponse) : List String × Option (List MediaEntry) :=
  if req.status_code ≠ 200 then
    if req.json_decodes = false then ([], none)
    else if raise_for_status req.status_code then ([req.body], none)
    else
      match req.parsed with
      | none => ([req.body], none)
      | some coll => ([req.body], some ((coll.lists.map MediaList.entries).flatten))
  else
    if req.json_decodes = false then ([], none)
    else
      match req.parsed with
      | none => ([], none)
      | some coll => ([], some ((coll.lists.map MediaList.entries).flatten))

/-- A concrete response for claim C2: status 304 (not a 2xx success, yet not
a 4xx/5xx error), a decodable body that validates to an empty collection. -/
def resp304 : UserlistResponse :=
  { status_code := 304
    json_decodes := true
    body := "\x7b\x7d"
    parsed := some ⟨[]⟩ }

/-- A concrete response for claim C2's amended statement: status 404. -/
def resp404 : UserlistResponse :=
  { status_code := 404
    json_decodes := true
    body := "\x7b\x7d"
    parsed := some ⟨[]⟩ }

/-- Claim C2 counterexample: a response whose status is not 2xx (here 304)
on which `get_userlist` still produces a result, because
`raise_for_status` raises only for 4xx/5xx; the claim that every non-2xx
status leads to an exception and no result is therefore false. -/
theorem get_userlist_claim_cex :
    (resp304.status_code < 200 ∨ 300 ≤ resp304.status_code)
    ∧ (get_userlist resp304).1 = [resp304.body]
    ∧ (get_userlist resp304).2 ≠ none := by
  refine ⟨Or.inr (by decide), rfl, by decide⟩

/-- Claim C2 amended: on a decodable response with status other than 200,
`get_userlist` prints the body; an exception is then raised exactly when the
status is 4xx/5xx, and only in that case is no result produced — for other
non-200 statuses execution continues and returns the flattened entries of
whatever the body validates to. -/
theorem get_userlist_error_handling (req : UserlistResponse)
    (hj : req.json_decodes = true) (hs : req.status_code ≠ 200) :
    (get_userlist req).1 = [req.body]
    ∧ (400 ≤ req.status_code → req.status_code < 600 → (get_userlist req).2 = none)
    ∧ (req.status_code < 400 ∨ 600 ≤ req.status_code →
        (get_userlist req).2
          = req.parsed.map (fun coll => (coll.lists.map MediaList.entries).flatten)) := by
  have hj' : ¬ req.json_decodes = false := by simp [hj]
  refine ⟨?_, ?_, ?_⟩
  · rw [get_userlist, if_pos hs, if_neg hj']
    rcases hr : raise_for_status req.status_code
    · rcases req.parsed with _ | coll <;> rfl
    · rfl
  · intro h4 h6
    rw [get_userlist, if_pos hs, if_neg hj',
      if_pos (by unfold raise_for_status; exact decide_eq_true ⟨h4, h6⟩)]
  · intro hrange
    have hr : raise_for_status req.status_code = false := by
      unfold raise_for_status
      rcases hrange with h | h <;> simp <;> omega
    rw [get_userlist, if_pos hs, if_neg hj', if_neg (by simp [hr])]
    rcases req.parsed with _ | coll <;> rfl

/-- Claim C2 amended witness at the concrete 404 response: body printed and
no result. -/
theorem get_userlist_error_handling_witness :
    (get_userlist resp404).1 = [resp404.body] ∧ (get_userlist resp404).2 = none := by
  have h := get_userlist_error_handling resp404 rfl (by decide)
  exact ⟨h.1, h.2.1 (by decide) (by decide)⟩

/-- Embeds `get_season`: `datetime.datetime.now()` is abstracted as the pair
of the current year and month.  A missing year defaults to the current year,
or the next one in December; a missing season defaults by month thresholds:
month below 2 or equal to 12 gives WINTER, below 5 SPRING, below 8 SUMMER,
otherwise FALL. -/
def get_season (now_year now_month : Nat) (year : Option Nat)
    (season : Option MediaSeason) : Nat × MediaSeason :=
  let year :=
    match year with
    | some y => y
    | none => if now_month < 12 then now_year else now_year + 1
  let season :=
    match season with
    | some s => s
    | none =>
      if now_month < 2 ∨ now_month = 12 then MediaSeason.WINTER
      else if now_month < 5 then MediaSeason.SPRING
      else if now_month < 8 then MediaSeason.SUMMER
      else MediaSeason.FALL
  (year, season)

/-- Claim C4: season and year inference of `get_season` from the current
date when not supplied — December gives next year's WINTER, January this
year's WINTER, February to April SPRING, May to July SUMMER, August to
November FALL — and an explicitly supplied year or season overrides the
inference for that component independently of the other. -/
theorem get_season_inference (ny nm : Nat) :
    (nm = 12 → get_season ny nm none none = (ny + 1, MediaSeason.WINTER))
    ∧ (nm = 1 → get_season ny nm none none = (ny, MediaSeason.WINTER))
    ∧ (2 ≤ nm → nm ≤ 4 → get_season ny nm none none = (ny, MediaSeason.SPRING))
    ∧ (5 ≤ nm → nm ≤ 7 → get_season ny nm none none = (ny, MediaSeason.SUMMER))
    ∧ (8 ≤ nm → nm ≤ 11 → get_season ny nm none none = (ny, MediaSeason.FALL))
    ∧ (∀ (y : Nat) (so : Option MediaSeason), (get_season ny nm (some y) so).1 = y)
    ∧ (∀ (yo : Option Nat) (s : MediaSeason), (get_season ny nm yo (some s)).2 = s) := by
  refine ⟨?_, ?_, ?_, ?_, ?_, ?_, ?_⟩
  · intro h
    subst h
    rfl
  · intro h
    subst h
    rfl
  · intro h2 h4
    unfold get_season
    rw [if_pos (by omega), if_neg (by omega), if_pos (by omega)]
  · intro h5 h7
    unfold get_season
    rw [if_pos (by omega), if_neg (by omega), if_neg (by omega), if_pos (by omega)]
  · intro h8 h11
    unfold get_season
    rw [if_pos (by omega), if_neg (by omega), if_neg (by omega), if_neg (by omega)]
  · intro y so
    rcases so with _ | s <;> rfl
  · intro yo s
    rcases yo with _ | y <;> rfl

/-- Claim C4 witness at concrete months: December 2025, January 2025, and
one month of each inferred season, plus explicit overrides. -/
theorem get_season_inference_witness :
    get_season 2025 12 none none = (2026, MediaSeason.WINTER)
    ∧ get_season 2025 1 none none = (2025, MediaSeason.WINTER)
    ∧ get_season 2025 4 none none = (2025, MediaSeason.SPRING)
    ∧ get_season 2025 7 none none = (2025, MediaSeason.SUMMER)
    ∧ get_season 2025 10 none none = (2025, MediaSeason.FALL)
    ∧ (get_season 2025 12 (some 2020) none).1 = 2020
    ∧ (get_season 2025 12 none (some MediaSeason.SUMMER)).2 = MediaSeason.SUMMER := by
  refine ⟨(get_season_inference 2025 12).1 rfl,
    (get_season_inference 2025 1).2.1 rfl,
    (get_season_inference 2025 4).2.2.1 (by decide) (by decide),
    (get_season_inference 2025 7).2.2.2.1 (by decide) (by decide),
    (get_season_inference 2025 10).2.2.2.2.1 (by decide) (by decide),
    (get_season_inference 2025 12).2.2.2.2.2.1 2020 none,
    (get_season_inference 2025 12).2.2.2.2.2.2 none MediaSeason.SUMMER⟩

/-- Embeds the watched/remaining loop of `user_progress`: the set of the
user entries' mediaId values, then one pass over the season media appending
each to `watched` when its id is in the set and to `remaining` otherwise. -/
def user_progress_split (medias : List Media) (user_list : List MediaEntry) :
    List Media × List Media :=
  let user_media_ids : List Int := user_list.map MediaEntry.mediaId
  medias.foldl
    (fun acc media =>
      if media.id ∈ user_media_ids then (acc.1 ++ [media], acc.2)
      else (acc.1, acc.2 ++ [media]))
    ([], [])

lemma foldl_partition_append (p : Media → Prop) [DecidablePred p] (l : List Media) :
    ∀ w r : List Media,
      l.foldl (fun acc m => if p m then (acc.1 ++ [m], acc.2) else (acc.1, acc.2 ++ [m])) (w, r)
        = (w ++ l.filter (fun m => decide (p m)), r ++ l.filter (fun m => !decide (p m))) := by
  induction l with
  | nil => intro w r; simp
  | cons m rest ih =>
    intro w r
    by_cases hp : p m <;> simp [List.foldl_cons, hp, ih, List.filter_cons]

/-- Claim C7: `user_progress` splits the season media into watched (id among
the user entries' mediaId values) and remaining (id not among them), each in
the media's original relative order, and every media item of the season list
lands in exactly one of the two partitions. -/
theorem user_progress_partition (medias : List Media) (user_list : List MediaEntry) :
    user_progress_split medias user_list
      = (medias.filter (fun m => decide (m.id ∈ user_list.map MediaEntry.mediaId)),
         medias.filter (fun m => decide (m.id ∉ user_list.map MediaEntry.mediaId)))
    ∧ ∀ m ∈ medias,
        (m ∈ (user_progress_split medias user_list).1
          ∧ m ∉ (user_progress_split medias user_list).2)
        ∨ (m ∈ (user_progress_split medias user_list).2
          ∧ m ∉ (user_progress_split medias user_list).1) := by
  have key : user_progress_split medias user_list
      = (medias.filter (fun m => decide (m.id ∈ user_list.map MediaEntry.mediaId)),
         medias.filter (fun m => decide (m.id ∉ user_list.map MediaEntry.mediaId))) := by
    unfold user_progress_split
    rw [foldl_partition_append]
    simp only [List.nil_append, decide_not]
  refine ⟨key, ?_⟩
  intro m hm
  rw [key]
  generalize user_list.map MediaEntry.mediaId = ids
  by_cases hmem : m.id ∈ ids
  · left
    constructor
    · simp [List.mem_filter, hm, hmem]
    · simp [List.mem_filter, hmem]
  · right
    constructor
    · simp [List.mem_filter, hm, hmem]
    · simp [List.mem_filter, hmem]

/-- Embeds the single-character substitution `.replace('_', ' ')` applied in
`md_summary`, on the character list of the string. -/
def replace_underscore (s : List Char) : List Char :=
  s.map (fun c => if c = '_' then ' ' else c)

/-- Embeds the Python expression `format or 'Unknown'`: None and the empty
string are falsy, any other string is kept. -/
def format_label : Option String → String
  | none => "Unknown"
  | some s => if s = "" then "Unknown" else s

/-- Embeds the group sub-header printed by `md_summary`: the text
around the format label, with every underscore of the whole line replaced
by a space. -/
def md_header (format : Option String) : List Char :=
  replace_underscore ("\n### ".data ++ (format_label format).data ++ "\n".data)

/-- Embeds one checklist line printed by `md_summary`: the link text with the
media's id, then the preferred title, with no substitution applied. -/
def md_checklist_line (media : Media) : List Char :=
  "- [ ] [\x7bAL\x7d](https://anilist.co/anime/".data ++ (toString media.id).data
    ++ ") ".data ++ media.title.userPreferred.data

/-- Claim C10: the printed sub-header of a format group is that group's
format string with every underscore replaced by a space (so no underscore
survives in the header), while the checklist lines carry the title verbatim:
an underscore in the preferred title stays in the printed line. -/
theorem md_header_underscore (s : String) (hs : s ≠ "") (m : Media) :
    md_header (some s) = "\n### ".data ++ replace_underscore s.data ++ "\n".data
    ∧ '_' ∉ md_header (some s)
    ∧ ('_' ∈ m.title.userPreferred.data → '_' ∈ md_checklist_line m) := by
  have hlabel : format_label (some s) = s := by simp [format_label, hs]
  have h1 : ("\n### ".data).map (fun c => if c = '_' then ' ' else c) = "\n### ".data := by
    decide
  have h2 : ("\n".data).map (fun c => if c = '_' then ' ' else c) = "\n".data := by
    decide
  refine ⟨?_, ?_, ?_⟩
  · unfold md_header
    rw [hlabel]
    unfold replace_underscore
    rw [List.map_append, List.map_append, h1, h2]
  · unfold md_header replace_underscore
    intro hmem
    rw [List.mem_map] at hmem
    obtain ⟨c, _, hc⟩ := hmem
    by_cases h : c = '_'
    · subst h
      rw [if_pos rfl] at hc
      exact absurd hc (by decide)
    · rw [if_neg h] at hc
      exact h hc
  · intro h
    unfold md_checklist_line
    exact List.mem_append_right _ h

/-- A concrete media value for witnesses: only the id, format and title
vary; the remaining fields are a fixed non-excluded shape. -/
def mkMedia (i : Int) (fmt : Option String) (t : String) : Media :=
  { id := i
    startDate := ⟨some 2025, some 1, some 1⟩
    isAdult := false
    episodes := some 12
    isLicensed := true
    genres := []
    tags := []
    title := ⟨t, none, t, t⟩
    relations := ⟨[]⟩
    format := fmt }

def mexA : Media := mkMedia 1 (some "TV") "Alpha"

def mexB : Media := mkMedia 2 (some "TV") "Beta"

def mexC : Media := mkMedia 3 (some "TV") "Gamma"

def mexU : Media := mkMedia 9 (some "TV_SHORT") "Under_score"

/-- Claim C10 witness: format TV_SHORT prints as a header with the
underscore replaced by a space, and an underscore of a title survives in its
checklist line. -/
theorem md_header_underscore_witness :
    md_header (some "TV_SHORT") = "\n### TV SHORT\n".data
    ∧ '_' ∈ md_checklist_line mexU := by
  have h := md_header_underscore "TV_SHORT" (by decide) mexU
  refine ⟨?_, h.2.2 (by decide)⟩
  rw [h.1]
  decide

def exPage1 : AnimePage := ⟨⟨true⟩, [mexA, mexB]⟩

def exPage2 : AnimePage := ⟨⟨false⟩, [mexC]⟩

/-- A two-page API for the C5 witness: page 1 has a next page and two
surviving items, every later page is the final one-item page. -/
def exResp : Nat → AnimePage := fun n => if n ≤ 1 then exPage1 else exPage2

/-- Claim C5 witness: page 1 with a next page and 2 surviving items followed
by page 2 with no next page and 1 surviving item gives exactly these 3 items
in page-then-within-page order. -/
theorem get_anime_concat_witness : get_anime exResp 1 2 = some [mexA, mexB, mexC] := by
  have h1 : ∀ i, i < 1 → (exResp (1 + i)).pageInfo.hasNextPage = true := by
    intro i hi
    have h0 : i = 0 := by omega
    subst h0
    rfl
  have h := get_anime_concat exResp 1 1 h1 rfl
  rw [h]
  decide

/-- A single-page API and an API that always reports a next page, for the
C6 witness. -/
def respEnding : Nat → AnimePage := fun _ => ⟨⟨false⟩, []⟩

def respLooping : Nat → AnimePage := fun _ => ⟨⟨true⟩, []⟩

/-- Claim C6 witness: with a last page the recursion returns a result, and
with an API that always reports a next page no fuel yields one. -/
theorem get_anime_termination_witness :
    (∃ l, get_anime respEnding 1 1 = some l)
    ∧ get_anime respLooping 1 5 = none :=
  ⟨get_anime_termination.1 respEnding 1 0 rfl,
   get_anime_termination.2 respLooping 5 1 (fun _ => rfl)⟩

def exEntry : MediaEntry := ⟨10, 2, "COMPLETED", 12, 80⟩

/-- Claim C7 witness: media ids [1, 2, 3] against a user list containing
mediaId 2 give watched [2] and remaining [1, 3] in original order, and the
first media lands in exactly one partition. -/
theorem user_progress_partition_witness :
    user_progress_split [mexA, mexB, mexC] [exEntry] = ([mexB], [mexA, mexC])
    ∧ ((mexA ∈ (user_progress_split [mexA, mexB, mexC] [exEntry]).1
        ∧ mexA ∉ (user_progress_split [mexA, mexB, mexC] [exEntry]).2)
      ∨ (mexA ∈ (user_progress_split [mexA, mexB, mexC] [exEntry]).2
        ∧ mexA ∉ (user_progress_split [mexA, mexB, mexC] [exEntry]).1)) := by
  have h := user_progress_partition [mexA, mexB, mexC] [exEntry]
  refine ⟨?_, h.2 mexA (by decide)⟩
  rw [h.1]
  decide

end Seasonals
